import Mathlib

/-!
Verification of src/openag_brain/software_modules/topic_filter.py.

The Python module defines an exponentially weighted moving average class
EWMA and two functions, filter_topic and filter_all_variable_topics, that
wire one EWMA filter per environmental variable between a "<var>/raw"
subscription and a "<var>/measured" publisher.

We embed the numeric payloads as exact rationals (ℚ).  Python None is
embedded as Option.none; in particular the Python method EWMA.__call__
has an explicit bare return statement on its first branch and falls off
the end of the function body on the second branch, so its Python return
value is None on every call, which the embedding keeps as the first
component of EWMA.call.
-/

namespace TopicFilter

/-- State of one EWMA instance: the coefficient self.a and the stored
self.average (None until the first sample). -/
structure EWMA where
  a : ℚ
  average : Option ℚ
deriving DecidableEq

/-- Embeds EWMA.__init__(self, a): stores a unchanged and sets
self.average = None.  No validation of any kind is performed. -/
def EWMA.init (a : ℚ) : EWMA :=
  { a := a, average := none }

/-- Embeds EWMA.__call__(self, sample).  Returns the pair
(Python return value, updated instance).  The first branch executes a bare
return statement (value None); the second branch has no return statement,
so it also returns None. -/
def EWMA.call (f : EWMA) (sample : ℚ) : Option ℚ × EWMA :=
  match f.average with
  | none => (none, { f with average := some sample })
  | some avg => (none, { f with average := some (f.a * sample + (1 - f.a) * avg) })

/-- Feed a list of samples to a filter in order, keeping only the state
(the Python return value is None and is discarded by all callers in the
source). -/
def EWMA.feed (f : EWMA) (xs : List ℚ) : EWMA :=
  xs.foldl (fun s x => (s.call x).2) f

/-- The fold from the spec: a_1 = x1, a_i = alpha*x_i + (1-alpha)*a_(i-1).
Written from the words of the spec, to be compared with EWMA.feed. -/
def specFold (alpha x1 : ℚ) (rest : List ℚ) : ℚ :=
  rest.foldl (fun acc x => alpha * x + (1 - alpha) * acc) x1

/-- The successive values a_2, ..., a_n of the fold from the spec, one per
sample after the seed. -/
def specScanAux (alpha acc : ℚ) : List ℚ → List ℚ
  | [] => []
  | x :: xs =>
    let next := alpha * x + (1 - alpha) * acc
    next :: specScanAux alpha next xs

/-- All successive averages a_1, a_2, ..., a_n for the sample sequence
x1 :: rest. -/
def specScan (alpha x1 : ℚ) (rest : List ℚ) : List ℚ :=
  x1 :: specScanAux alpha x1 rest

/-- A std_msgs/Float64 message: a single numeric data field. -/
structure Float64 where
  data : ℚ
deriving DecidableEq

/-- Embeds the body of callback(src_item) inside filter_topic: feed
src_item.data to the filter of the binding, then build
topic_type(f.average) from the attribute f.average (not from the None
that f(...) returned) and publish it.  Returns the pair
(updated filter, published message).  The published payload mirrors
whatever f.average holds after the update. -/
def callback (f : EWMA) (msg : Float64) : EWMA × Option Float64 :=
  let g := (f.call msg.data).2
  (g, g.average.map Float64.mk)

/-- Deliver a list of messages to the callback of one binding in order,
collecting the published messages. -/
def runCallbacks : EWMA → List Float64 → EWMA × List (Option Float64)
  | f, [] => (f, [])
  | f, m :: ms =>
    let p := callback f m
    let r := runCallbacks p.1 ms
    (r.1, p.2 :: r.2)

/-- One relay binding as created by filter_topic: the source topic of its
subscription, the destination topic of its publisher, and its own EWMA
filter instance. -/
structure Binding where
  srcTopic : String
  destTopic : String
  filter : EWMA
deriving DecidableEq

/-- The observable ROS-side state: which topics have live subscriptions,
which have live publishers, and the bindings (closure state) that exist. -/
structure BusState where
  subs : List String
  pubs : List String
  bindings : List Binding
deriving DecidableEq

/-- The empty bus state, before any binding is created. -/
def BusState.empty : BusState :=
  { subs := [], pubs := [], bindings := [] }

/-- Embeds filter_topic(src_topic, dest_topic, topic_type) with
topic_type = Float64: creates a publisher on dest_topic, a fresh
EWMA(0.3), and a subscriber on src_topic whose handler closes over both.
Returns the Python return value (sub, pub) (the two handles, identified
by their topics) together with the new bus state. -/
def filter_topic (src_topic dest_topic : String) (st : BusState) :
    (String × String) × BusState :=
  ((src_topic, dest_topic),
   { subs := st.subs ++ [src_topic],
     pubs := st.pubs ++ [dest_topic],
     bindings := st.bindings ++ [⟨src_topic, dest_topic, EWMA.init (3 / 10)⟩] })

/-- Embeds filter_all_variable_topics(variables): for each variable
identifier v, call filter_topic(v + "/raw", v + "/measured", Float64) and
discard its result.  The Python function has no return statement, so its
return value is None, embedded as none : Option (List Binding). -/
def filter_all_variable_topics (vars : List String) (st : BusState) :
    Option (List Binding) × BusState :=
  (none,
   vars.foldl
     (fun s v => (filter_topic (v ++ "/raw") (v ++ "/measured") s).2) st)

/-- One delivery event on the multi-binding system: the filter of the
matching binding (keyed by variable identifier) absorbs the sample; every
other binding is untouched. -/
def deliver (st : List (String × EWMA)) (ev : String × ℚ) :
    List (String × EWMA) :=
  st.map fun p => if p.1 = ev.1 then (p.1, (p.2.call ev.2).2) else p

/-- Run a sequence of delivery events, in order, over the multi-binding
system. -/
def runEvents (st : List (String × EWMA)) (evs : List (String × ℚ)) :
    List (String × EWMA) :=
  evs.foldl deliver st

/-- The subsequence of samples addressed to variable v. -/
def samplesFor (v : String) (evs : List (String × ℚ)) : List ℚ :=
  evs.filterMap fun e => if e.1 = v then some e.2 else none

/-- The filter of the first binding keyed by v, if any. -/
def lookupVar (v : String) : List (String × EWMA) → Option EWMA
  | [] => none
  | p :: rest => if p.1 = v then some p.2 else lookupVar v rest

/-- After any call, the stored average is defined. -/
theorem call_average_isSome (f : EWMA) (x : ℚ) :
    ((f.call x).2).average.isSome := by
  cases h : f.average <;> simp [EWMA.call, h]

/-- A call leaves the coefficient unchanged. -/
theorem call_a (f : EWMA) (x : ℚ) : ((f.call x).2).a = f.a := by
  cases h : f.average <;> simp [EWMA.call, h]

/-- Feeding samples preserves definedness of the average. -/
theorem feed_average_isSome (xs : List ℚ) :
    ∀ f : EWMA, f.average.isSome → ((f.feed xs)).average.isSome := by
  induction xs with
  | nil => intro f h; exact h
  | cons x xs ih => intro f _; exact ih _ (call_average_isSome f x)

/-- A filter whose average is defined computes the fold from the spec
with its own coefficient. -/
theorem feed_of_some (xs : List ℚ) :
    ∀ (f : EWMA) (acc : ℚ), f.average = some acc →
      (f.feed xs).average = some (specFold f.a acc xs) := by
  induction xs with
  | nil => intro f acc h; simpa [EWMA.feed, specFold] using h
  | cons x xs ih =>
    intro f acc h
    have hc : (f.call x).2.average = some (f.a * x + (1 - f.a) * acc) := by
      simp [EWMA.call, h]
    have hstep : f.feed (x :: xs) = EWMA.feed (f.call x).2 xs := rfl
    rw [hstep, ih _ _ hc, call_a]
    rfl

/-- Published messages from a filter with a defined average follow the
scan of the fold from the spec. -/
theorem runCallbacks_of_some (ms : List Float64) :
    ∀ (f : EWMA) (acc : ℚ), f.average = some acc →
      (runCallbacks f ms).2 =
        (specScanAux f.a acc (ms.map Float64.data)).map (fun v => some ⟨v⟩) := by
  induction ms with
  | nil => intro f acc _; rfl
  | cons m ms ih =>
    intro f acc h
    have hc : (f.call m.data).2.average = some (f.a * m.data + (1 - f.a) * acc) := by
      simp [EWMA.call, h]
    simp [runCallbacks, callback, hc, specScanAux, ih _ _ hc, call_a]

/-- The bus state produced by filter_all_variable_topics appends, per
variable, one subscription on v/raw, one publisher on v/measured, and one
binding holding a fresh EWMA(0.3). -/
theorem fat_state_eq (vs : List String) : ∀ st : BusState,
    (filter_all_variable_topics vs st).2 =
      ⟨st.subs ++ vs.map (fun v => v ++ "/raw"),
       st.pubs ++ vs.map (fun v => v ++ "/measured"),
       st.bindings ++
         vs.map (fun v => ⟨v ++ "/raw", v ++ "/measured", EWMA.init (3 / 10)⟩)⟩ := by
  induction vs with
  | nil => intro st; simp [filter_all_variable_topics]
  | cons v vs ih =>
    intro st
    have hstep : (filter_all_variable_topics (v :: vs) st).2 =
        (filter_all_variable_topics vs
          ((filter_topic (v ++ "/raw") (v ++ "/measured") st).2)).2 := rfl
    rw [hstep, ih]
    simp [filter_topic]

/-- Looking up a binding after one delivery: the targeted variable has
absorbed the sample, all others are unchanged. -/
theorem lookup_deliver (st : List (String × EWMA)) (ev : String × ℚ)
    (v : String) :
    lookupVar v (deliver st ev) =
      if ev.1 = v then (lookupVar v st).map (fun f => (f.call ev.2).2)
      else lookupVar v st := by
  induction st with
  | nil => by_cases hv : ev.1 = v <;> simp [deliver, lookupVar, hv]
  | cons p rest ih =>
    have hd : deliver (p :: rest) ev =
        (if p.1 = ev.1 then (p.1, (p.2.call ev.2).2) else p) :: deliver rest ev := rfl
    rw [hd]
    by_cases hk : p.1 = ev.1
    · rw [if_pos hk]
      by_cases hp : p.1 = v
      · have hev : ev.1 = v := hk.symm.trans hp
        rw [if_pos hev]
        simp [lookupVar, hp]
      · have hev : ¬ ev.1 = v := fun h => hp (hk.trans h)
        rw [if_neg hev]
        simp [lookupVar, hp, ih, hev]
    · rw [if_neg hk]
      by_cases hp : p.1 = v
      · have hev : ¬ ev.1 = v := fun h => hk (hp.trans h.symm)
        rw [if_neg hev]
        simp [lookupVar, hp]
      · simp [lookupVar, hp, ih]

/-- Running events updates each binding exactly by its own subsequence of
samples. -/
theorem runEvents_lookup (evs : List (String × ℚ)) :
    ∀ (st : List (String × EWMA)) (v : String),
      lookupVar v (runEvents st evs) =
        (lookupVar v st).map (fun f => f.feed (samplesFor v evs)) := by
  induction evs with
  | nil =>
    intro st v
    have h0 : runEvents st [] = st := rfl
    rw [h0]
    cases lookupVar v st <;> rfl
  | cons ev evs ih =>
    intro st v
    have hstep : runEvents st (ev :: evs) = runEvents (deliver st ev) evs := rfl
    rw [hstep, ih, lookup_deliver]
    by_cases hv : ev.1 = v
    · simp [hv, samplesFor, Option.map_map]
      cases lookupVar v st <;> rfl
    · simp [hv, samplesFor]

/-- C1: the claim says update(x1) returns exactly x1 and each later call
returns the new average.  In the source, EWMA.__call__ returns None on
every call (a bare return statement on the first branch, no return
statement on the second), contradicting its own docstring, which promises
the latest moving average; the callback in filter_topic works around the
slip by reading the attribute f.average instead.  At the failing input
(a fresh EWMA(0.3), sample 10) the call stores average 10 but returns
None rather than 10. -/
theorem C1_call_returns_none :
    ((EWMA.init (3 / 10)).call 10).1 = none ∧
      ((EWMA.init (3 / 10)).call 10).2.average = some 10 :=
  ⟨rfl, rfl⟩

/-- C2 counterexample: on the concrete input ["air_temperature"], the
Python function filter_all_variable_topics returns None (embedded as
none), not the set of bindings it created, so the construction operation
does not return the active bindings as claimed. -/
theorem C2_counterexample :
    (filter_all_variable_topics ["air_temperature"] BusState.empty).1 = none :=
  rfl

/-- C2 amended: the binding-construction operation creates, for each
variable identifier, one active binding (fresh EWMA(0.3) filter plus
subscription handle plus publisher handle), but it returns None and keeps
no returned record of the bindings; the discarded per-variable helper
filter_topic is what returns each (sub, pub) pair. -/
theorem C2_bindings_created (vs : List String) (st : BusState) :
    (filter_all_variable_topics vs st).1 = none ∧
      (filter_all_variable_topics vs st).2.bindings =
        st.bindings ++
          vs.map (fun v => ⟨v ++ "/raw", v ++ "/measured", EWMA.init (3 / 10)⟩) := by
  refine ⟨rfl, ?_⟩
  rw [fat_state_eq]

/-- C3: for every sample sequence x1..xn and alpha in (0,1], after
feeding the samples in order, the stored average equals the fold a_n with
a_1 = x1 and a_i = alpha*x_i + (1-alpha)*a_(i-1). -/
theorem C3_recurrence (alpha x1 : ℚ) (rest : List ℚ)
    (h1 : 0 < alpha) (h2 : alpha ≤ 1) :
    ((EWMA.init alpha).feed (x1 :: rest)).average =
      some (specFold alpha x1 rest) := by
  have hstep : (EWMA.init alpha).feed (x1 :: rest) =
      EWMA.feed ((EWMA.init alpha).call x1).2 rest := rfl
  have hc : ((EWMA.init alpha).call x1).2.average = some x1 := rfl
  rw [hstep, feed_of_some rest _ x1 hc]
  rfl

/-- Witness for C3 at alpha = 0.3 and samples [10, 20, 20]. -/
theorem C3_recurrence_witness :
    (0 : ℚ) < 3 / 10 ∧ (3 / 10 : ℚ) ≤ 1 ∧
      ((EWMA.init (3 / 10)).feed [10, 20, 20]).average =
        some (specFold (3 / 10) 10 [20, 20]) :=
  ⟨by norm_num, by norm_num,
   C3_recurrence (3 / 10) 10 [20, 20] (by norm_num) (by norm_num)⟩

/-- C4: each delivered sample is fed to the filter of the binding and the
resulting average is wrapped and published; the published sequence is the
scan of the fold from the spec, and with alpha = 0.3 the samples
[10, 20, 20] produce the published values 10, 13, 15.1. -/
theorem C4_published_values :
    (∀ (alpha x1 : ℚ) (rest : List ℚ),
       (runCallbacks (EWMA.init alpha) ((x1 :: rest).map Float64.mk)).2 =
         (specScan alpha x1 rest).map (fun v => some ⟨v⟩)) ∧
      (runCallbacks (EWMA.init (3 / 10)) [⟨10⟩, ⟨20⟩, ⟨20⟩]).2 =
        [some ⟨10⟩, some ⟨13⟩, some ⟨151 / 10⟩] := by
  constructor
  · intro alpha x1 rest
    have hc : ((EWMA.init alpha).call x1).2.average = some x1 := rfl
    have hdata : List.map (Float64.data ∘ Float64.mk) rest = rest := by
      rw [show (Float64.data ∘ Float64.mk) = id from rfl]
      exact List.map_id rest
    simp only [List.map_cons, runCallbacks, callback]
    rw [runCallbacks_of_some _ _ x1 hc]
    simp [specScan, EWMA.call, EWMA.init, List.map_map, hc, hdata]
  · norm_num [runCallbacks, callback, EWMA.call, EWMA.init]

/-- C5: every variable identifier v in the input yields a subscription on
v ++ "/raw" and a publisher on v ++ "/measured". -/
theorem C5_channel_naming (v : String) (vs : List String) (st : BusState)
    (h : v ∈ vs) :
    (v ++ "/raw") ∈ (filter_all_variable_topics vs st).2.subs ∧
      (v ++ "/measured") ∈ (filter_all_variable_topics vs st).2.pubs := by
  rw [fat_state_eq]
  exact ⟨List.mem_append_right _ (List.mem_map_of_mem _ h),
         List.mem_append_right _ (List.mem_map_of_mem _ h)⟩

/-- Witness for C5 at the variable identifier "air_temperature". -/
theorem C5_channel_naming_witness :
    "air_temperature" ∈ ["air_temperature"] ∧
      ("air_temperature" ++ "/raw") ∈
        (filter_all_variable_topics ["air_temperature"] BusState.empty).2.subs ∧
      ("air_temperature" ++ "/measured") ∈
        (filter_all_variable_topics ["air_temperature"] BusState.empty).2.pubs :=
  ⟨List.mem_singleton.mpr rfl,
   C5_channel_naming "air_temperature" ["air_temperature"] BusState.empty
     (List.mem_singleton.mpr rfl)⟩

/-- C6: the stored average is None exactly until the first sample is
processed; after a nonempty sample sequence it always holds a defined
value. -/
theorem C6_average_defined_iff (a : ℚ) (xs : List ℚ) :
    ((EWMA.init a).feed xs).average = none ↔ xs = [] := by
  constructor
  · intro h
    cases xs with
    | nil => rfl
    | cons x rest =>
      have hs : ((EWMA.init a).feed (x :: rest)).average.isSome =
          true :=
        feed_average_isSome rest _ (call_average_isSome (EWMA.init a) x)
      rw [h] at hs
      simp at hs
  · intro h
    rw [h]
    rfl

/-- C7: every binding is created with its own fresh EWMA(0.3), and the
final filter state of each variable is the fold of exactly its own
samples, for every interleaving of delivery events: deliveries to other
variables never influence it. -/
theorem C7_independence :
    (∀ vs : List String,
       ((filter_all_variable_topics vs BusState.empty).2.bindings).map
           Binding.filter =
         vs.map (fun _ => EWMA.init (3 / 10))) ∧
      ∀ (st : List (String × EWMA)) (evs : List (String × ℚ)) (v : String),
        lookupVar v (runEvents st evs) =
          (lookupVar v st).map (fun f => f.feed (samplesFor v evs)) := by
  constructor
  · intro vs
    rw [fat_state_eq]
    simp only [BusState.empty, List.nil_append, List.map_map]
    rfl
  · intro st evs v
    exact runEvents_lookup evs st v

/-- C8: binding an empty sequence of variable identifiers creates no
subscription, no publisher and no binding, returns normally (value None),
and leaves the bus state exactly unchanged. -/
theorem C8_empty_config (st : BusState) :
    filter_all_variable_topics [] st = (none, st) :=
  rfl

/-- C9: construction performs no validation of the coefficient: for every
rational a, including 0, negative values and values above 1, EWMA.__init__
succeeds, stores a unchanged, starts with average None, and later updates
use exactly the stored a. -/
theorem C9_no_validation (a : ℚ) :
    (EWMA.init a).a = a ∧ (EWMA.init a).average = none ∧
      ∀ x1 x2 : ℚ, ((EWMA.init a).feed [x1, x2]).average =
        some (a * x2 + (1 - a) * x1) :=
  ⟨rfl, rfl, fun _ _ => rfl⟩

/-- C10: a constant input is an exact fixed point: if the stored average
is c, updating with sample c leaves the average exactly c, with exact
arithmetic. -/
theorem C10_constant_fixed_point (f : EWMA) (c : ℚ)
    (h : f.average = some c) :
    ((f.call c).2).average = some c := by
  simp [EWMA.call, h]
  ring

/-- Witness for C10 at a filter with coefficient 0.3 and average 5. -/
theorem C10_constant_fixed_point_witness :
    (EWMA.mk (3 / 10) (some 5)).average = some 5 ∧
      (((EWMA.mk (3 / 10) (some 5)).call 5).2).average = some 5 :=
  ⟨rfl, C10_constant_fixed_point (EWMA.mk (3 / 10) (some 5)) 5 rfl⟩

end TopicFilter
